import Mathlib

/-!
Verification of the chapter-reordering controller of the audiobook admin
console (`Chapters` page).  The controller translates a drag-and-drop
gesture into a single network update of the moved chapter
`chapterNumber`, with debounced persistence, cross-page transfer at the
page boundaries, and optimistic update with rollback on failure.

The embedding below is a shallow model of the relevant source:
  * `Chapter`, the entity with its integer ordering key;
  * `sortCh`, the stable ascending sort `[...xs].sort((a, b) => a.chapterNumber - b.chapterNumber)`;
  * `arrayMove`, the dnd-kit array move (remove at source, insert at destination);
  * `computeInPageNumber`, the new-chapter-number computation of the
    in-page reorder branch (including the final `Math.max(1, _)` clamp);
  * `CtrlState` / `Gateway` / `NetCall`, the component state, the
    persistence gateway oracle, and the network-call trace;
  * `debouncedUpdateChapter` / `fireTimer`, the trailing-edge debounce
    (timer handle stored in a ref, cleared and replaced on re-schedule);
  * `handleDragEnd`, the drag-end handler with its early returns,
    boundary detection, cross-page branches and in-page branch.

JavaScript `Math.floor((a + b) / 2)` on integers is `Int.fdiv (a + b) 2`
(floor division), and `Math.max` is `max`.
-/

namespace AudiobookAdmin

/-- A chapter as the reordering logic sees it: an opaque stable id and the
signed integer ordering key `chapterNumber`. -/
structure Chapter where
  id : String
  chapterNumber : Int
  deriving Repr, DecidableEq

/-- Insert a chapter into a list sorted ascending by `chapterNumber`,
before the first strictly greater element (stability of the JS sort). -/
def insertCh (c : Chapter) : List Chapter → List Chapter
  | [] => [c]
  | x :: xs =>
    if c.chapterNumber < x.chapterNumber then c :: x :: xs else x :: insertCh c xs

/-- The sort `[...xs].sort((a, b) => a.chapterNumber - b.chapterNumber)`:
stable ascending sort by `chapterNumber`. -/
def sortCh : List Chapter → List Chapter
  | [] => []
  | c :: cs => insertCh c (sortCh cs)

/-- dnd-kit `arrayMove(array, from, to)`: remove the element at index
`from` and re-insert it at index `to`; identity when `from` is out of
bounds.  At the call site both indices come from successful
`findIndex` calls, so they are always in bounds. -/
def arrayMove (l : List α) (i j : Nat) : List α :=
  match l[i]? with
  | some x => (l.eraseIdx i).insertIdx j x
  | none => l

/-- JS `Array.prototype.findIndex`, with `none` for the `-1` result:
index of the first element satisfying `p`. -/
def findIndexP (p : α → Bool) : List α → Option Nat
  | [] => none
  | x :: xs => if p x then some 0 else (findIndexP p xs).map (· + 1)

/-- The new `chapterNumber` computed by the in-page reorder branch
(source lines 262-288): first-position, last-position and between-items
cases, the midpoint with collision fallback, and the final
`Math.max(1, newChapterNumber)` clamp. -/
def computeInPageNumber (reorderedChapters : List Chapter) (newIndex : Nat) : Int :=
  let raw : Int :=
    if newIndex = 0 then
      match reorderedChapters[1]? with
      | some nextChapter => max 1 (nextChapter.chapterNumber - 1)
      | none => 1
    else if newIndex = reorderedChapters.length - 1 then
      match reorderedChapters[newIndex - 1]? with
      | some prevChapter => prevChapter.chapterNumber + 1
      | none => 1
    else
      match reorderedChapters[newIndex - 1]?, reorderedChapters[newIndex + 1]? with
      | some prevChapter, some nextChapter =>
        let mid := Int.fdiv (prevChapter.chapterNumber + nextChapter.chapterNumber) 2
        if mid = prevChapter.chapterNumber then prevChapter.chapterNumber + 1 else mid
      | some prevChapter, none => prevChapter.chapterNumber + 1
      | none, _ => 1
  max 1 raw

/-- Error taxonomy of the persistence gateway: transport failure, server
rejection of the payload, missing chapter/audiobook.  The catch blocks
of the controller never inspect the error value. -/
inductive ApiError where
  | network
  | validation
  | notFound
  deriving Repr, DecidableEq

/-- Oracle for the persistence gateway: `pageOf p` is the chapter data
returned by `fetchChapters` for page `p` (fetches succeed), and
`updateResult cid n` is `none` when `updateChapterThunk` for chapter
`cid` with number `n` fulfills, `some e` when it rejects with `e`. -/
structure Gateway where
  pageOf : Nat → List Chapter
  updateResult : String → Int → Option ApiError

/-- A network call issued through the gateway, in issue order. -/
inductive NetCall where
  | fetch (page : Nat)
  | update (chapterId : String) (chapterNumber : Int)
  deriving Repr, DecidableEq

/-- State of the `Chapters` component relevant to reordering:
`localChapters` (displayed order), `originalOrderRef` (rollback
snapshot), the page pointer and pagination info, the debounce timer
bookkeeping (`armedTimers` are the not-yet-fired timeouts that exist,
`storedTimer` is `debounceTimeoutRef`, `nextTimerId` a fresh timeout
handle supply) and `pendingUpdateRef`. -/
structure CtrlState where
  localChapters : List Chapter
  originalOrder : List Chapter
  currentPage : Nat
  pagination : Option Nat
  armedTimers : List Nat
  storedTimer : Option Nat
  nextTimerId : Nat
  pendingUpdate : Option (String × Int)
  deriving Repr, DecidableEq

/-- The `useEffect` on the chapter list of the store (source lines 62-68):
whenever the store refreshes, the displayed order is re-initialized to
the sorted list and the rollback snapshot is set to the same list. -/
def syncFromStore (chapters : List Chapter) (s : CtrlState) : CtrlState :=
  let sorted := sortCh chapters
  { s with localChapters := sorted, originalOrder := sorted }

/-- `pagination && pagination.totalPages > currentPage` (line 195). -/
def laterPage (s : CtrlState) : Bool :=
  match s.pagination with
  | some totalPages => decide (s.currentPage < totalPages)
  | none => false

/-- Scheduling part of `debouncedUpdateChapter` (lines 142-151): clear
any pending timeout, store the pending update, arm a new timeout.  The
network effects happen only when the timeout fires (`fireTimer`). -/
def debouncedUpdateChapter (chapterId : String) (newChapterNumber : Int)
    (s : CtrlState) : CtrlState :=
  let cleared :=
    match s.storedTimer with
    | some t => s.armedTimers.erase t
    | none => s.armedTimers
  { s with
    armedTimers := cleared ++ [s.nextTimerId]
    storedTimer := some s.nextTimerId
    nextTimerId := s.nextTimerId + 1
    pendingUpdate := some (chapterId, newChapterNumber) }

/-- Firing of the debounce timeout callback (lines 152-174): if timer
`t` is still armed it runs the callback, which reads the pending update
and issues the update call; on success the current page is re-fetched
(refreshing the store, hence re-syncing displayed order and snapshot)
and the pending marker is cleared; on failure the displayed order is
reverted to the snapshot and a re-fetch of the current page is issued
(fire-and-forget, so its store refresh lands after this handler). -/
def fireTimer (g : Gateway) (t : Nat) (s : CtrlState) : CtrlState × List NetCall :=
  if s.armedTimers.contains t then
    let s0 := { s with armedTimers := s.armedTimers.erase t }
    match s0.pendingUpdate with
    | none => (s0, [])
    | some (chapterId, newChapterNumber) =>
      match g.updateResult chapterId newChapterNumber with
      | none =>
        let s1 := syncFromStore (g.pageOf s0.currentPage) s0
        ({ s1 with pendingUpdate := none },
          [NetCall.update chapterId newChapterNumber, NetCall.fetch s0.currentPage])
      | some _ =>
        ({ s0 with localChapters := s0.originalOrder },
          [NetCall.update chapterId newChapterNumber, NetCall.fetch s0.currentPage])
  else (s, [])

/-- Move-to-previous-page branch (lines 197-226): fetch the previous
page (its fulfillment refreshes the store, re-syncing displayed order
and snapshot before the awaited update settles), compute the new number
from the last chapter of the sorted previous page, issue the awaited
update; on success set the page pointer back and re-fetch both pages;
on failure revert to the snapshot and re-fetch the original page. -/
def movePrevPage (g : Gateway) (s : CtrlState) (activeId : String) :
    CtrlState × List NetCall :=
  let targetPage := s.currentPage - 1
  let prevData := g.pageOf targetPage
  let s1 := syncFromStore prevData s
  let sortedPrev := sortCh prevData
  let newChapterNumber : Int :=
    match sortedPrev.getLast? with
    | some lastChapter => lastChapter.chapterNumber + 1
    | none => 1
  match g.updateResult activeId newChapterNumber with
  | none =>
    let s2 := syncFromStore (g.pageOf targetPage) s1
    let s3 := syncFromStore (g.pageOf s.currentPage) s2
    ({ s3 with currentPage := targetPage },
      [NetCall.fetch targetPage, NetCall.update activeId newChapterNumber,
        NetCall.fetch targetPage, NetCall.fetch s.currentPage])
  | some _ =>
    ({ s1 with localChapters := s1.originalOrder },
      [NetCall.fetch targetPage, NetCall.update activeId newChapterNumber,
        NetCall.fetch s.currentPage])

/-- Move-to-next-page branch (lines 228-256): symmetric to
`movePrevPage`, with the new number computed as
`Math.max(1, firstOfNextPage.chapterNumber - 1)` (or 1 when empty). -/
def moveNextPage (g : Gateway) (s : CtrlState) (activeId : String) :
    CtrlState × List NetCall :=
  let targetPage := s.currentPage + 1
  let nextData := g.pageOf targetPage
  let s1 := syncFromStore nextData s
  let sortedNext := sortCh nextData
  let newChapterNumber : Int :=
    match sortedNext.head? with
    | some firstChapter => max 1 (firstChapter.chapterNumber - 1)
    | none => 1
  match g.updateResult activeId newChapterNumber with
  | none =>
    let s2 := syncFromStore (g.pageOf targetPage) s1
    let s3 := syncFromStore (g.pageOf s.currentPage) s2
    ({ s3 with currentPage := targetPage },
      [NetCall.fetch targetPage, NetCall.update activeId newChapterNumber,
        NetCall.fetch targetPage, NetCall.fetch s.currentPage])
  | some _ =>
    ({ s1 with localChapters := s1.originalOrder },
      [NetCall.fetch targetPage, NetCall.update activeId newChapterNumber,
        NetCall.fetch s.currentPage])

/-- In-page reorder branch (lines 258-291): optimistic array move of the
displayed order, computation of the new chapter number, and scheduling
of the debounced update.  No network call is issued synchronously. -/
def inPageReorder (s : CtrlState) (activeId : String) (oldIndex newIndex : Nat) :
    CtrlState × List NetCall :=
  let reorderedChapters := arrayMove s.localChapters oldIndex newIndex
  let newChapterNumber := computeInPageNumber reorderedChapters newIndex
  let s1 := { s with localChapters := reorderedChapters }
  (debouncedUpdateChapter activeId newChapterNumber s1, [])

/-- `handleDragEnd` (lines 178-292): early returns when there is no
drop target, the chapter was dropped on itself, or either id is not in
the displayed order; boundary detection for cross-page moves; otherwise
the in-page reorder. -/
def handleDragEnd (g : Gateway) (s : CtrlState) (activeId : String)
    (over : Option String) : CtrlState × List NetCall :=
  match over with
  | none => (s, [])
  | some overId =>
    if activeId = overId then (s, [])
    else
      match findIndexP (fun c => c.id == activeId) s.localChapters,
          findIndexP (fun c => c.id == overId) s.localChapters with
      | some oldIndex, some newIndex =>
        if newIndex = 0 ∧ 1 < s.currentPage then
          movePrevPage g s activeId
        else if newIndex = s.localChapters.length - 1 ∧ laterPage s = true then
          moveNextPage g s activeId
        else
          inPageReorder s activeId oldIndex newIndex
      | some _, none => (s, [])
      | none, _ => (s, [])

/-- A successful `findIndex` returns an index inside the list. -/
lemma findIndexP_lt_length {p : α → Bool} :
    ∀ {l : List α} {i : Nat}, findIndexP p l = some i → i < l.length := by
  intro l
  induction l with
  | nil => intro i h; simp [findIndexP] at h
  | cons x xs ih =>
    intro i h
    by_cases hx : p x
    · simp [findIndexP, hx] at h
      simp only [List.length_cons]
      omega
    · simp only [findIndexP, hx, if_false, Bool.false_eq_true] at h
      rw [Option.map_eq_some'] at h
      obtain ⟨j, hj, hji⟩ := h
      have := ih hj
      simp only [List.length_cons]
      omega

/-- `arrayMove` with in-bounds indices preserves the length. -/
lemma arrayMove_length {l : List α} {i j : Nat} (hi : i < l.length)
    (hj : j < l.length) : (arrayMove l i j).length = l.length := by
  unfold arrayMove
  rw [List.getElem?_eq_getElem hi]
  have he : (l.eraseIdx i).length = l.length - 1 := by
    rw [List.length_eraseIdx]; simp [hi]
  rw [List.length_insertIdx _ _ (by omega), he]
  omega

/-- Removing the moved element at its destination undoes the insertion:
the remaining chapters appear exactly as in the source list with the
moved element removed. -/
lemma arrayMove_eraseIdx {l : List α} {i : Nat} (j : Nat) (hi : i < l.length) :
    (arrayMove l i j).eraseIdx j = l.eraseIdx i := by
  unfold arrayMove
  rw [List.getElem?_eq_getElem hi]
  exact List.eraseIdx_insertIdx j (l.eraseIdx i)

/-- Membership in `insertCh` is membership in the original list or
being the inserted chapter. -/
lemma mem_insertCh {c y : Chapter} :
    ∀ {l : List Chapter}, y ∈ insertCh c l ↔ y = c ∨ y ∈ l := by
  intro l
  induction l with
  | nil => simp [insertCh]
  | cons x xs ih =>
    by_cases h : c.chapterNumber < x.chapterNumber
    · simp [insertCh, if_pos h, List.mem_cons]
    · simp only [insertCh, if_neg h, List.mem_cons, ih]
      tauto

/-- `insertCh` keeps the list sorted ascending by `chapterNumber`. -/
lemma insertCh_pairwise {c : Chapter} :
    ∀ {l : List Chapter},
      l.Pairwise (fun a b => a.chapterNumber ≤ b.chapterNumber) →
      (insertCh c l).Pairwise (fun a b => a.chapterNumber ≤ b.chapterNumber) := by
  intro l
  induction l with
  | nil => intro _; simp [insertCh]
  | cons x xs ih =>
    intro h
    rw [List.pairwise_cons] at h
    obtain ⟨hx, hxs⟩ := h
    by_cases hc : c.chapterNumber < x.chapterNumber
    · simp only [insertCh, if_pos hc]
      refine List.Pairwise.cons ?_ (List.Pairwise.cons hx hxs)
      intro y hy
      rcases List.mem_cons.mp hy with rfl | hy
      · omega
      · have := hx y hy; omega
    · simp only [insertCh, if_neg hc]
      refine List.Pairwise.cons ?_ (ih hxs)
      intro y hy
      rcases mem_insertCh.mp hy with rfl | hy
      · omega
      · exact hx y hy

/-- `insertCh` is insertion up to permutation. -/
lemma insertCh_perm (c : Chapter) :
    ∀ (l : List Chapter), (insertCh c l).Perm (c :: l) := by
  intro l
  induction l with
  | nil => simp [insertCh]
  | cons x xs ih =>
    by_cases h : c.chapterNumber < x.chapterNumber
    · simp [insertCh, h]
    · simp only [insertCh, if_neg h]
      exact (ih.cons x).trans (List.Perm.swap c x xs)

/-- The displayed sort is ascending by `chapterNumber`. -/
lemma sortCh_pairwise :
    ∀ (l : List Chapter),
      (sortCh l).Pairwise (fun a b => a.chapterNumber ≤ b.chapterNumber) := by
  intro l
  induction l with
  | nil => simp [sortCh]
  | cons c cs ih => exact insertCh_pairwise ih

/-- The displayed sort is a permutation of the store list. -/
lemma sortCh_perm : ∀ (l : List Chapter), (sortCh l).Perm l := by
  intro l
  induction l with
  | nil => simp [sortCh]
  | cons c cs ih => exact (insertCh_perm c (sortCh cs)).trans (ih.cons c)

/-- Debounce bookkeeping invariant: either no timeout is armed, or
exactly the one whose handle is stored in `debounceTimeoutRef`. -/
def DebounceInv (s : CtrlState) : Prop :=
  s.armedTimers = [] ∨ ∃ t, s.storedTimer = some t ∧ s.armedTimers = [t]

/-- Scheduling a debounced update leaves exactly one armed timeout, the
newly created one, whose handle is stored. -/
lemma debouncedUpdateChapter_armed {s : CtrlState} (h : DebounceInv s)
    (chapterId : String) (n : Int) :
    (debouncedUpdateChapter chapterId n s).armedTimers = [s.nextTimerId] ∧
      (debouncedUpdateChapter chapterId n s).storedTimer = some s.nextTimerId ∧
      (debouncedUpdateChapter chapterId n s).pendingUpdate = some (chapterId, n) := by
  rcases h with h | ⟨t, hst, ha⟩
  · unfold debouncedUpdateChapter
    cases hs : s.storedTimer <;> simp [h, hs]
  · unfold debouncedUpdateChapter
    simp [hst, ha]

/-- Scheduling preserves the debounce invariant. -/
lemma debouncedUpdateChapter_inv {s : CtrlState} (h : DebounceInv s)
    (chapterId : String) (n : Int) :
    DebounceInv (debouncedUpdateChapter chapterId n s) := by
  obtain ⟨ha, hst, _⟩ := debouncedUpdateChapter_armed h chapterId n
  exact Or.inr ⟨s.nextTimerId, hst, ha⟩

/-- A sequence of debounced schedulings, in order. -/
def scheduleAll (reqs : List (String × Int)) (s : CtrlState) : CtrlState :=
  reqs.foldl (fun st r => debouncedUpdateChapter r.1 r.2 st) s

/-- The invariant is preserved through any scheduling sequence. -/
lemma scheduleAll_inv :
    ∀ (reqs : List (String × Int)) {s : CtrlState}, DebounceInv s →
      DebounceInv (scheduleAll reqs s) := by
  intro reqs
  induction reqs with
  | nil => intro s h; exact h
  | cons q qs ih =>
    intro s h
    exact ih (debouncedUpdateChapter_inv h q.1 q.2)

/-- After a nonempty scheduling sequence the pending slot holds the most
recently scheduled request. -/
lemma scheduleAll_pending :
    ∀ (reqs : List (String × Int)) {s : CtrlState} {r : String × Int},
      reqs.getLast? = some r → (scheduleAll reqs s).pendingUpdate = some r := by
  intro reqs
  induction reqs with
  | nil => intro s r h; simp at h
  | cons q qs ih =>
    intro s r h
    cases qs with
    | nil =>
      simp at h
      subst h
      simp [scheduleAll, debouncedUpdateChapter]
    | cons q2 qs2 =>
      rw [List.getLast?_cons_cons] at h
      exact ih h

/-- After a nonempty scheduling sequence exactly one timeout is armed
and its handle is the stored one. -/
lemma scheduleAll_armed :
    ∀ (reqs : List (String × Int)) {s : CtrlState}, DebounceInv s → reqs ≠ [] →
      ∃ t, (scheduleAll reqs s).storedTimer = some t ∧
        (scheduleAll reqs s).armedTimers = [t] := by
  intro reqs
  induction reqs with
  | nil => intro s _ h; exact absurd rfl h
  | cons q qs ih =>
    intro s h _
    cases qs with
    | nil =>
      obtain ⟨ha, hst, _⟩ := debouncedUpdateChapter_armed h q.1 q.2
      exact ⟨s.nextTimerId, hst, ha⟩
    | cons q2 qs2 =>
      exact ih (debouncedUpdateChapter_inv h q.1 q.2) (by simp)

/-- At most one timeout is armed in any state satisfying the invariant. -/
lemma DebounceInv.armed_le_one {s : CtrlState} (h : DebounceInv s) :
    s.armedTimers.length ≤ 1 := by
  rcases h with h | ⟨t, _, h⟩ <;> simp [h]

/-- Predicate selecting the update calls of a trace. -/
def NetCall.isUpd : NetCall → Bool
  | NetCall.update _ _ => true
  | NetCall.fetch _ => false

/-- Scheduling changes no field outside the debounce bookkeeping. -/
lemma debouncedUpdateChapter_frame (chapterId : String) (n : Int) (s : CtrlState) :
    (debouncedUpdateChapter chapterId n s).localChapters = s.localChapters ∧
      (debouncedUpdateChapter chapterId n s).originalOrder = s.originalOrder ∧
      (debouncedUpdateChapter chapterId n s).currentPage = s.currentPage := by
  unfold debouncedUpdateChapter
  cases s.storedTimer <;> exact ⟨rfl, rfl, rfl⟩

/-- A scheduling sequence changes no field outside the debounce
bookkeeping. -/
lemma scheduleAll_currentPage :
    ∀ (reqs : List (String × Int)) (s : CtrlState),
      (scheduleAll reqs s).currentPage = s.currentPage := by
  intro reqs
  induction reqs with
  | nil => intro s; rfl
  | cons q qs ih =>
    intro s
    rw [show scheduleAll (q :: qs) s = scheduleAll qs (debouncedUpdateChapter q.1 q.2 s) from rfl,
      ih, (debouncedUpdateChapter_frame q.1 q.2 s).2.2]

/-- Dispatch: a drop that is neither boundary case runs the in-page
reorder branch. -/
lemma handleDragEnd_inPage {g : Gateway} {s : CtrlState} {activeId overId : String}
    {oldIndex newIndex : Nat}
    (hne : activeId ≠ overId)
    (hfa : findIndexP (fun c => c.id == activeId) s.localChapters = some oldIndex)
    (hfo : findIndexP (fun c => c.id == overId) s.localChapters = some newIndex)
    (htop : ¬(newIndex = 0 ∧ 1 < s.currentPage))
    (hbot : ¬(newIndex = s.localChapters.length - 1 ∧ laterPage s = true)) :
    handleDragEnd g s activeId (some overId) =
      inPageReorder s activeId oldIndex newIndex := by
  simp only [handleDragEnd, if_neg hne, hfa, hfo, if_neg htop, if_neg hbot]

/-- Dispatch: a drop at index 0 on a page after the first runs the
move-to-previous-page branch. -/
lemma handleDragEnd_top {g : Gateway} {s : CtrlState} {activeId overId : String}
    {oldIndex newIndex : Nat}
    (hne : activeId ≠ overId)
    (hfa : findIndexP (fun c => c.id == activeId) s.localChapters = some oldIndex)
    (hfo : findIndexP (fun c => c.id == overId) s.localChapters = some newIndex)
    (htop : newIndex = 0 ∧ 1 < s.currentPage) :
    handleDragEnd g s activeId (some overId) = movePrevPage g s activeId := by
  simp only [handleDragEnd, if_neg hne, hfa, hfo, if_pos htop]

/-- Dispatch: a drop at the last index while a later page exists runs
the move-to-next-page branch. -/
lemma handleDragEnd_bottom {g : Gateway} {s : CtrlState} {activeId overId : String}
    {oldIndex newIndex : Nat}
    (hne : activeId ≠ overId)
    (hfa : findIndexP (fun c => c.id == activeId) s.localChapters = some oldIndex)
    (hfo : findIndexP (fun c => c.id == overId) s.localChapters = some newIndex)
    (htop : ¬(newIndex = 0 ∧ 1 < s.currentPage))
    (hbot : newIndex = s.localChapters.length - 1 ∧ laterPage s = true) :
    handleDragEnd g s activeId (some overId) = moveNextPage g s activeId := by
  simp only [handleDragEnd, if_neg hne, hfa, hfo, if_neg htop, if_pos hbot]

/-- The in-page branch schedules the computed number for the dragged
chapter, applies the optimistic array move, and issues no call. -/
lemma inPageReorder_spec (s : CtrlState) (activeId : String) (oldIndex newIndex : Nat) :
    (inPageReorder s activeId oldIndex newIndex).1.pendingUpdate
        = some (activeId,
            computeInPageNumber (arrayMove s.localChapters oldIndex newIndex) newIndex) ∧
      (inPageReorder s activeId oldIndex newIndex).1.localChapters
        = arrayMove s.localChapters oldIndex newIndex ∧
      (inPageReorder s activeId oldIndex newIndex).1.originalOrder = s.originalOrder ∧
      (inPageReorder s activeId oldIndex newIndex).1.currentPage = s.currentPage ∧
      (inPageReorder s activeId oldIndex newIndex).2 = [] := by
  unfold inPageReorder debouncedUpdateChapter
  cases s.storedTimer <;> exact ⟨rfl, rfl, rfl, rfl, rfl⟩

/-- The computed number is always at least 1 (the final clamp). -/
lemma computeInPageNumber_ge_one (l : List Chapter) (newIndex : Nat) :
    1 ≤ computeInPageNumber l newIndex :=
  le_max_left 1 _

/-- First-position case of the number computation. -/
lemma computeInPageNumber_zero (l : List Chapter) :
    computeInPageNumber l 0 =
      match l[1]? with
      | some nextChapter => max 1 (nextChapter.chapterNumber - 1)
      | none => 1 := by
  unfold computeInPageNumber
  rw [if_pos rfl]
  cases h : l[1]? with
  | none => exact max_self 1
  | some nextChapter => rw [← max_assoc, max_self]

/-- Last-position case of the number computation. -/
lemma computeInPageNumber_last {l : List Chapter} {newIndex : Nat}
    (h0 : newIndex ≠ 0) (hl : newIndex = l.length - 1) :
    computeInPageNumber l newIndex =
      max 1 (match l[newIndex - 1]? with
        | some prevChapter => prevChapter.chapterNumber + 1
        | none => 1) := by
  unfold computeInPageNumber
  rw [if_neg h0, if_pos hl]

/-- Between-neighbors case of the number computation. -/
lemma computeInPageNumber_mid {l : List Chapter} {newIndex : Nat}
    {prevChapter nextChapter : Chapter}
    (h0 : newIndex ≠ 0) (hl : newIndex ≠ l.length - 1)
    (hp : l[newIndex - 1]? = some prevChapter)
    (hn : l[newIndex + 1]? = some nextChapter) :
    computeInPageNumber l newIndex =
      max 1 (if Int.fdiv (prevChapter.chapterNumber + nextChapter.chapterNumber) 2
               = prevChapter.chapterNumber
             then prevChapter.chapterNumber + 1
             else Int.fdiv (prevChapter.chapterNumber + nextChapter.chapterNumber) 2) := by
  unfold computeInPageNumber
  rw [if_neg h0, if_neg hl, hp, hn]

/-- Floor midpoint of a gap of at least two lies strictly between. -/
lemma fdiv_mid_between {n m : Int} (h : n + 2 ≤ m) :
    n < Int.fdiv (n + m) 2 ∧ Int.fdiv (n + m) 2 < m := by
  rw [Int.fdiv_eq_ediv _ (by norm_num)]
  omega

/-- Floor midpoint of adjacent keys collides with the left key. -/
lemma fdiv_adjacent (n : Int) : Int.fdiv (n + (n + 1)) 2 = n := by
  rw [Int.fdiv_eq_ediv _ (by norm_num)]
  omega

/-- A gateway whose pages are empty and whose updates always fulfill. -/
def exGateway : Gateway := ⟨fun _ => [], fun _ _ => none⟩

/-- A synced first-page state with three chapters numbered 1, 2, 3. -/
def exState1 : CtrlState :=
  ⟨[⟨"a", 1⟩, ⟨"b", 2⟩, ⟨"c", 3⟩], [⟨"a", 1⟩, ⟨"b", 2⟩, ⟨"c", 3⟩],
    1, some 1, [], none, 0, none⟩

/-- C1: for every in-page reorder (a drop that triggers neither boundary
case), the chapterNumber submitted for the moved chapter is: when moved
to position 0, `max(1, nextNeighbor.chapterNumber - 1)`, or 1 if there
is no neighbor; when moved to the last position,
`prevNeighbor.chapterNumber + 1`, or 1 if there is no neighbor, the
whole clamped to a minimum of 1; and in every case the submitted value
is at least 1. -/
theorem claim_C1_in_page_endpoint_numbers
    (g : Gateway) (s : CtrlState) (activeId overId : String) (oldIndex newIndex : Nat)
    (hne : activeId ≠ overId)
    (hfa : findIndexP (fun c => c.id == activeId) s.localChapters = some oldIndex)
    (hfo : findIndexP (fun c => c.id == overId) s.localChapters = some newIndex)
    (htop : ¬(newIndex = 0 ∧ 1 < s.currentPage))
    (hbot : ¬(newIndex = s.localChapters.length - 1 ∧ laterPage s = true)) :
    ∃ n : Int,
      (handleDragEnd g s activeId (some overId)).1.pendingUpdate = some (activeId, n) ∧
      1 ≤ n ∧
      (newIndex = 0 →
        n = match (arrayMove s.localChapters oldIndex newIndex)[1]? with
            | some nextChapter => max 1 (nextChapter.chapterNumber - 1)
            | none => 1) ∧
      (newIndex ≠ 0 → newIndex = (arrayMove s.localChapters oldIndex newIndex).length - 1 →
        n = max 1 (match (arrayMove s.localChapters oldIndex newIndex)[newIndex - 1]? with
            | some prevChapter => prevChapter.chapterNumber + 1
            | none => 1)) := by
  rw [handleDragEnd_inPage hne hfa hfo htop hbot]
  obtain ⟨hpend, -, -, -, -⟩ := inPageReorder_spec s activeId oldIndex newIndex
  refine ⟨_, hpend, computeInPageNumber_ge_one _ _, ?_, ?_⟩
  · intro h0
    subst h0
    exact computeInPageNumber_zero _
  · intro h0 hl
    exact computeInPageNumber_last h0 hl

/-- C1 witness: on the concrete three-chapter page, dragging chapter c
onto chapter a moves it to position 0 next to the neighbor numbered 1,
and the submitted number is `max(1, 1 - 1) = 1`. -/
theorem claim_C1_witness :
    (handleDragEnd exGateway exState1 "c" (some "a")).1.pendingUpdate = some ("c", 1) := by
  obtain ⟨n, hpend, hge, hzero, hlast⟩ :=
    claim_C1_in_page_endpoint_numbers exGateway exState1 "c" "a" 2 0
      (by decide) (by decide) (by decide) (by decide) (by decide)
  rw [hpend, hzero rfl]
  decide

/-- C8: whenever the chapter list of the store changes, the displayed
order is re-initialized to that list sorted ascending by chapterNumber,
the rollback snapshot is set to the same list, and the displayed list is
sorted ascending and a permutation of the store list. -/
theorem claim_C8_store_sync_sorted (chapters : List Chapter) (s : CtrlState) :
    (syncFromStore chapters s).localChapters = sortCh chapters ∧
    (syncFromStore chapters s).originalOrder = (syncFromStore chapters s).localChapters ∧
    List.Pairwise (fun a b => a.chapterNumber ≤ b.chapterNumber)
      (syncFromStore chapters s).localChapters ∧
    ((syncFromStore chapters s).localChapters).Perm chapters :=
  ⟨rfl, rfl, sortCh_pairwise chapters, sortCh_perm chapters⟩

/-- C10: a drag-end event with no drop target, or whose dragged id or
drop-target id does not occur in the displayed order, returns
immediately: state unchanged, nothing scheduled, zero network calls. -/
theorem claim_C10_invalid_drop_noop
    (g : Gateway) (s : CtrlState) (activeId : String) (over : Option String)
    (h : over = none ∨ ∃ overId, over = some overId ∧
      (findIndexP (fun c => c.id == activeId) s.localChapters = none ∨
        findIndexP (fun c => c.id == overId) s.localChapters = none)) :
    handleDragEnd g s activeId over = (s, []) := by
  rcases h with rfl | ⟨overId, rfl, h⟩
  · rfl
  · by_cases hne : activeId = overId
    · simp [handleDragEnd, hne]
    · rcases h with h | h
      · simp [handleDragEnd, hne, h]
      · cases hfa : findIndexP (fun c => c.id == activeId) s.localChapters with
        | none => simp [handleDragEnd, hne, h, hfa]
        | some k => simp [handleDragEnd, hne, h, hfa]

/-- C10 witness: a drop with no target on the concrete state changes
nothing and issues no call; likewise for a dragged id that is not in
the displayed order. -/
theorem claim_C10_witness :
    handleDragEnd exGateway exState1 "a" none = (exState1, []) ∧
    handleDragEnd exGateway exState1 "zz" (some "a") = (exState1, []) :=
  ⟨claim_C10_invalid_drop_noop exGateway exState1 "a" none (Or.inl rfl),
    claim_C10_invalid_drop_noop exGateway exState1 "zz" (some "a")
      (Or.inr ⟨"a", rfl, Or.inl (by decide)⟩)⟩

/-- A synced first-page state with negative chapter numbers -9, -5, -2,
exposing the final clamp of the in-page number computation. -/
def exStateNeg : CtrlState :=
  ⟨[⟨"a", -9⟩, ⟨"b", -5⟩, ⟨"c", -2⟩], [⟨"a", -9⟩, ⟨"b", -5⟩, ⟨"c", -2⟩],
    1, none, [], none, 0, none⟩

/-- C2 counterexample: dragging chapter a between the neighbors numbered
-5 and -2 (an integer gap of 3, so the claim requires a submitted value
strictly between them) submits the clamped value 1, which is not below
-2.  The final `Math.max(1, _)` clamp overrides the midpoint for
negative keys. -/
theorem claim_C2_counterexample :
    (handleDragEnd exGateway exStateNeg "a" (some "b")).1.pendingUpdate = some ("a", 1) ∧
    (-5 : Int) + 2 ≤ -2 ∧ ¬((1 : Int) < -2) := by decide

/-- C2 amended: moving a chapter between neighbors numbered N and M with
M - N ≥ 2 submits `max(1, floor((N + M) / 2))`; the midpoint itself is
strictly between N and M, and whenever N ≥ 0 the clamp is inactive, so
the submitted value is strictly between N and M. -/
theorem claim_C2_amended_midpoint
    (g : Gateway) (s : CtrlState) (activeId overId : String)
    (oldIndex newIndex : Nat) (prevChapter nextChapter : Chapter)
    (hne : activeId ≠ overId)
    (hfa : findIndexP (fun c => c.id == activeId) s.localChapters = some oldIndex)
    (hfo : findIndexP (fun c => c.id == overId) s.localChapters = some newIndex)
    (h0 : newIndex ≠ 0)
    (hlast : newIndex ≠ s.localChapters.length - 1)
    (hp : (arrayMove s.localChapters oldIndex newIndex)[newIndex - 1]? = some prevChapter)
    (hn : (arrayMove s.localChapters oldIndex newIndex)[newIndex + 1]? = some nextChapter)
    (hgap : prevChapter.chapterNumber + 2 ≤ nextChapter.chapterNumber) :
    (handleDragEnd g s activeId (some overId)).1.pendingUpdate
      = some (activeId,
          max 1 (Int.fdiv (prevChapter.chapterNumber + nextChapter.chapterNumber) 2)) ∧
    prevChapter.chapterNumber
      < Int.fdiv (prevChapter.chapterNumber + nextChapter.chapterNumber) 2 ∧
    Int.fdiv (prevChapter.chapterNumber + nextChapter.chapterNumber) 2
      < nextChapter.chapterNumber ∧
    (0 ≤ prevChapter.chapterNumber →
      max 1 (Int.fdiv (prevChapter.chapterNumber + nextChapter.chapterNumber) 2)
        = Int.fdiv (prevChapter.chapterNumber + nextChapter.chapterNumber) 2) := by
  have htop : ¬(newIndex = 0 ∧ 1 < s.currentPage) := fun hc => h0 hc.1
  have hbot : ¬(newIndex = s.localChapters.length - 1 ∧ laterPage s = true) :=
    fun hc => hlast hc.1
  rw [handleDragEnd_inPage hne hfa hfo htop hbot]
  obtain ⟨hpend, -, -, -, -⟩ := inPageReorder_spec s activeId oldIndex newIndex
  have hlen := arrayMove_length (findIndexP_lt_length hfa) (findIndexP_lt_length hfo)
  have hl2 : newIndex ≠ (arrayMove s.localChapters oldIndex newIndex).length - 1 := by
    rw [hlen]; exact hlast
  obtain ⟨hlt, hgt⟩ := fdiv_mid_between hgap
  have hmid : computeInPageNumber (arrayMove s.localChapters oldIndex newIndex) newIndex
      = max 1 (Int.fdiv (prevChapter.chapterNumber + nextChapter.chapterNumber) 2) := by
    rw [computeInPageNumber_mid h0 hl2 hp hn, if_neg (by omega)]
  rw [hpend, hmid]
  exact ⟨rfl, hlt, hgt, fun hpos => max_eq_right (by omega)⟩

/-- A synced first-page state with chapter numbers 1, 2, 9, giving an
integer gap for the midpoint rule. -/
def exStateGap : CtrlState :=
  ⟨[⟨"a", 1⟩, ⟨"b", 2⟩, ⟨"c", 9⟩], [⟨"a", 1⟩, ⟨"b", 2⟩, ⟨"c", 9⟩],
    1, some 1, [], none, 0, none⟩

/-- C2 witness: dragging chapter a between the neighbors numbered 2 and
9 submits `floor((2 + 9) / 2) = 5`, strictly between them. -/
theorem claim_C2_witness :
    (handleDragEnd exGateway exStateGap "a" (some "b")).1.pendingUpdate = some ("a", 5) := by
  obtain ⟨hpend, -, -, -⟩ :=
    claim_C2_amended_midpoint exGateway exStateGap "a" "b" 0 1 ⟨"b", 2⟩ ⟨"c", 9⟩
      (by decide) (by decide) (by decide) (by decide) (by decide) (by decide)
      (by decide) (by decide)
  rw [hpend]
  decide

/-- A synced first-page state with negative adjacent neighbors -3, -2. -/
def exStateAdjNeg : CtrlState :=
  ⟨[⟨"a", -9⟩, ⟨"b", -3⟩, ⟨"c", -2⟩], [⟨"a", -9⟩, ⟨"b", -3⟩, ⟨"c", -2⟩],
    1, none, [], none, 0, none⟩

/-- C3 counterexample: dragging chapter a between the adjacent neighbors
numbered N = -3 and N + 1 = -2 submits the clamped value 1, not the
documented fallback N + 1 = -2, refuting the claim for every signed
integer N. -/
theorem claim_C3_counterexample :
    (handleDragEnd exGateway exStateAdjNeg "a" (some "b")).1.pendingUpdate
      = some ("a", 1) ∧ (1 : Int) ≠ -3 + 1 := by decide

/-- C3 amended: moving a chapter between adjacent neighbors numbered N
and N + 1 submits `max(1, N + 1)` (the collision fallback, then the
final clamp); for N ≥ 0 this is exactly N + 1 as the claim states. -/
theorem claim_C3_amended_adjacent
    (g : Gateway) (s : CtrlState) (activeId overId : String)
    (oldIndex newIndex : Nat) (prevChapter nextChapter : Chapter)
    (hne : activeId ≠ overId)
    (hfa : findIndexP (fun c => c.id == activeId) s.localChapters = some oldIndex)
    (hfo : findIndexP (fun c => c.id == overId) s.localChapters = some newIndex)
    (h0 : newIndex ≠ 0)
    (hlast : newIndex ≠ s.localChapters.length - 1)
    (hp : (arrayMove s.localChapters oldIndex newIndex)[newIndex - 1]? = some prevChapter)
    (hn : (arrayMove s.localChapters oldIndex newIndex)[newIndex + 1]? = some nextChapter)
    (hadj : nextChapter.chapterNumber = prevChapter.chapterNumber + 1) :
    (handleDragEnd g s activeId (some overId)).1.pendingUpdate
      = some (activeId, max 1 (prevChapter.chapterNumber + 1)) ∧
    (0 ≤ prevChapter.chapterNumber →
      max 1 (prevChapter.chapterNumber + 1) = prevChapter.chapterNumber + 1) := by
  have htop : ¬(newIndex = 0 ∧ 1 < s.currentPage) := fun hc => h0 hc.1
  have hbot : ¬(newIndex = s.localChapters.length - 1 ∧ laterPage s = true) :=
    fun hc => hlast hc.1
  rw [handleDragEnd_inPage hne hfa hfo htop hbot]
  obtain ⟨hpend, -, -, -, -⟩ := inPageReorder_spec s activeId oldIndex newIndex
  have hlen := arrayMove_length (findIndexP_lt_length hfa) (findIndexP_lt_length hfo)
  have hl2 : newIndex ≠ (arrayMove s.localChapters oldIndex newIndex).length - 1 := by
    rw [hlen]; exact hlast
  have hmid : computeInPageNumber (arrayMove s.localChapters oldIndex newIndex) newIndex
      = max 1 (prevChapter.chapterNumber + 1) := by
    rw [computeInPageNumber_mid h0 hl2 hp hn, hadj, fdiv_adjacent, if_pos rfl]
  rw [hpend, hmid]
  exact ⟨rfl, fun hpos => max_eq_right (by omega)⟩

/-- A synced first-page state where a drag lands between the adjacent
neighbors numbered 2 and 3. -/
def exStateAdj : CtrlState :=
  ⟨[⟨"a", 5⟩, ⟨"b", 2⟩, ⟨"c", 3⟩], [⟨"a", 5⟩, ⟨"b", 2⟩, ⟨"c", 3⟩],
    1, some 1, [], none, 0, none⟩

/-- C3 witness: dragging chapter a between the adjacent neighbors
numbered 2 and 3 submits the fallback 2 + 1 = 3. -/
theorem claim_C3_witness :
    (handleDragEnd exGateway exStateAdj "a" (some "b")).1.pendingUpdate = some ("a", 3) := by
  obtain ⟨hpend, -⟩ :=
    claim_C3_amended_adjacent exGateway exStateAdj "a" "b" 0 1 ⟨"b", 2⟩ ⟨"c", 3⟩
      (by decide) (by decide) (by decide) (by decide) (by decide) (by decide)
      (by decide) (by decide)
  rw [hpend]
  decide

/-- The in-page branch is scheduling on the optimistically reordered
state. -/
lemma inPageReorder_state (s : CtrlState) (activeId : String) (oldIndex newIndex : Nat) :
    (inPageReorder s activeId oldIndex newIndex).1
      = debouncedUpdateChapter activeId
          (computeInPageNumber (arrayMove s.localChapters oldIndex newIndex) newIndex)
          { s with localChapters := arrayMove s.localChapters oldIndex newIndex } := rfl

/-- Firing the armed timeout issues exactly the update for the pending
request followed by the current-page re-fetch, whether the update
fulfills or rejects. -/
lemma fireTimer_armed_calls {s : CtrlState} {t : Nat} {chapterId : String} {n : Int}
    (ha : s.armedTimers = [t]) (hpend : s.pendingUpdate = some (chapterId, n))
    (g : Gateway) :
    (fireTimer g t s).2 = [NetCall.update chapterId n, NetCall.fetch s.currentPage] := by
  unfold fireTimer
  rw [ha, if_pos (by simp : ([t].contains t) = true)]
  dsimp only
  rw [hpend]
  dsimp only
  cases g.updateResult chapterId n <;> rfl

/-- Firing the armed timeout when the update rejects reverts the
displayed order to the rollback snapshot, leaves the snapshot and page
pointer unchanged, and issues the update plus a current-page re-fetch
and nothing else (no retry). -/
lemma fireTimer_fail {g : Gateway} {s : CtrlState} {t : Nat} {chapterId : String}
    {n : Int} {e : ApiError}
    (ha : s.armedTimers = [t]) (hpend : s.pendingUpdate = some (chapterId, n))
    (herr : g.updateResult chapterId n = some e) :
    (fireTimer g t s).1.localChapters = s.originalOrder ∧
      (fireTimer g t s).1.currentPage = s.currentPage ∧
      (fireTimer g t s).2 = [NetCall.update chapterId n, NetCall.fetch s.currentPage] := by
  unfold fireTimer
  rw [ha, if_pos (by simp : ([t].contains t) = true)]
  dsimp only
  rw [hpend]
  dsimp only
  rw [herr]
  exact ⟨rfl, rfl, rfl⟩

/-- Any firing of any timeout issues either nothing or exactly the
pending update followed by the current-page re-fetch. -/
lemma fireTimer_calls {s : CtrlState} {chapterId : String} {n : Int}
    (hpend : s.pendingUpdate = some (chapterId, n)) (g : Gateway) (t : Nat) :
    (fireTimer g t s).2 = [] ∨
      (fireTimer g t s).2 = [NetCall.update chapterId n, NetCall.fetch s.currentPage] := by
  unfold fireTimer
  by_cases hc : (s.armedTimers.contains t) = true
  · rw [if_pos hc]
    dsimp only
    rw [hpend]
    dsimp only
    cases g.updateResult chapterId n <;> exact Or.inr rfl
  · rw [if_neg hc]
    exact Or.inl rfl

/-- C5: scheduling any number of debounced updates within one window
keeps at most one timeout pending at every intermediate point, stores
the most recently scheduled request in the single slot, and firing the
single armed timeout issues exactly one network update call, carrying
the chapter id and number of the last scheduled request; the earlier
requests are never sent, and scheduling itself issues no call. -/
theorem claim_C5_debounce_single_update
    (s : CtrlState) (reqs : List (String × Int)) (chapterId : String) (n : Int)
    (hinv : DebounceInv s)
    (hlast : reqs.getLast? = some (chapterId, n)) :
    (∀ qs rest, reqs = qs ++ rest → (scheduleAll qs s).armedTimers.length ≤ 1) ∧
    (scheduleAll reqs s).pendingUpdate = some (chapterId, n) ∧
    ∃ t, (scheduleAll reqs s).storedTimer = some t ∧
      (scheduleAll reqs s).armedTimers = [t] ∧
      ∀ g : Gateway,
        (fireTimer g t (scheduleAll reqs s)).2
          = [NetCall.update chapterId n, NetCall.fetch s.currentPage] := by
  refine ⟨?_, scheduleAll_pending reqs hlast, ?_⟩
  · intro qs rest _
    exact (scheduleAll_inv qs hinv).armed_le_one
  · have hnil : reqs ≠ [] := by
      intro h
      rw [h] at hlast
      simp at hlast
    obtain ⟨t, hst, ha⟩ := scheduleAll_armed reqs hinv hnil
    refine ⟨t, hst, ha, fun g => ?_⟩
    have hcall := fireTimer_armed_calls ha (scheduleAll_pending reqs hlast) g
    rw [scheduleAll_currentPage] at hcall
    exact hcall

/-- The three debounced requests of the C5 witness, last one ("c", 5). -/
def exReqs : List (String × Int) := [("c", 2), ("c", 3), ("c", 5)]

/-- C5 witness: scheduling three updates for chapter c on the concrete
state leaves one armed timeout and the last request in the slot, and
firing it issues the single update ("c", 5) plus the page-1 re-fetch. -/
theorem claim_C5_witness :
    (scheduleAll exReqs exState1).pendingUpdate = some ("c", 5) ∧
    ∃ t, (scheduleAll exReqs exState1).storedTimer = some t ∧
      (scheduleAll exReqs exState1).armedTimers = [t] ∧
      (fireTimer exGateway t (scheduleAll exReqs exState1)).2
        = [NetCall.update "c" 5, NetCall.fetch exState1.currentPage] := by
  obtain ⟨hbound, hpend, t, hst, ha, hfire⟩ :=
    claim_C5_debounce_single_update exState1 exReqs "c" 5 (Or.inl rfl) (by decide)
  exact ⟨hpend, t, hst, ha, hfire exGateway⟩

/-- C6: if the gateway rejects the debounced update of an in-page
reorder, firing the timeout reverts the displayed order to the
last-known-good snapshot, equal to the pre-drag displayed order for a
synced state, issues the single failed update and a re-fetch of the
current page, and no retry; the error value is universally quantified,
so network, validation and not-found failures all take this same
rollback-and-refetch path. -/
theorem claim_C6_debounced_failure_rollback
    (g : Gateway) (s : CtrlState) (activeId overId : String) (oldIndex newIndex : Nat)
    (e : ApiError)
    (hsync : s.localChapters = s.originalOrder)
    (hinv : DebounceInv s)
    (hne : activeId ≠ overId)
    (hfa : findIndexP (fun c => c.id == activeId) s.localChapters = some oldIndex)
    (hfo : findIndexP (fun c => c.id == overId) s.localChapters = some newIndex)
    (htop : ¬(newIndex = 0 ∧ 1 < s.currentPage))
    (hbot : ¬(newIndex = s.localChapters.length - 1 ∧ laterPage s = true))
    (herr : g.updateResult activeId
        (computeInPageNumber (arrayMove s.localChapters oldIndex newIndex) newIndex)
        = some e) :
    (handleDragEnd g s activeId (some overId)).2 = [] ∧
    ∃ t, (handleDragEnd g s activeId (some overId)).1.armedTimers = [t] ∧
      (fireTimer g t (handleDragEnd g s activeId (some overId)).1).1.localChapters
        = s.localChapters ∧
      (fireTimer g t (handleDragEnd g s activeId (some overId)).1).2
        = [NetCall.update activeId
            (computeInPageNumber (arrayMove s.localChapters oldIndex newIndex) newIndex),
          NetCall.fetch s.currentPage] := by
  rw [handleDragEnd_inPage hne hfa hfo htop hbot]
  obtain ⟨-, -, -, -, hcalls⟩ := inPageReorder_spec s activeId oldIndex newIndex
  refine ⟨hcalls, ?_⟩
  rw [inPageReorder_state]
  have hinv2 : DebounceInv
      { s with localChapters := arrayMove s.localChapters oldIndex newIndex } := by
    rcases hinv with h | ⟨t, h1, h2⟩
    · exact Or.inl h
    · exact Or.inr ⟨t, h1, h2⟩
  obtain ⟨ha, hst, hpend⟩ := debouncedUpdateChapter_armed hinv2 activeId
    (computeInPageNumber (arrayMove s.localChapters oldIndex newIndex) newIndex)
  obtain ⟨hroll, hpage, hfire⟩ := fireTimer_fail ha hpend herr
  refine ⟨s.nextTimerId, ha, ?_, ?_⟩
  · rw [hroll, (debouncedUpdateChapter_frame _ _ _).2.1]
    exact hsync.symm
  · rw [hfire, (debouncedUpdateChapter_frame _ _ _).2.2]

/-- A gateway whose pages are empty and whose updates always reject
with a network error. -/
def exGatewayFail : Gateway := ⟨fun _ => [], fun _ _ => some ApiError.network⟩

/-- C6 witness: on the concrete synced page, dragging chapter a onto
chapter b and firing the debounced update against the failing gateway
reverts the displayed order to the pre-drag order and issues exactly
the one update and the page-1 re-fetch. -/
theorem claim_C6_witness :
    (handleDragEnd exGatewayFail exState1 "a" (some "b")).2 = [] ∧
    ∃ t, (handleDragEnd exGatewayFail exState1 "a" (some "b")).1.armedTimers = [t] ∧
      (fireTimer exGatewayFail t
          (handleDragEnd exGatewayFail exState1 "a" (some "b")).1).1.localChapters
        = exState1.localChapters ∧
      (fireTimer exGatewayFail t
          (handleDragEnd exGatewayFail exState1 "a" (some "b")).1).2
        = [NetCall.update "a"
            (computeInPageNumber (arrayMove exState1.localChapters 0 1) 1),
          NetCall.fetch exState1.currentPage] :=
  claim_C6_debounced_failure_rollback exGatewayFail exState1 "a" "b" 0 1
    ApiError.network rfl (Or.inl rfl) (by decide) (by decide) (by decide)
    (by decide) (by decide) (by decide)

/-- C7: an in-page reorder issues no synchronous network call, schedules
exactly one update and only for the moved chapter, and the displayed
order after the array move, with the moved chapter removed at its
destination, equals the pre-drag order with it removed at its source:
the relative order of all other chapters is preserved; any later timer
firing issues at most one update call, targeting only the moved
chapter. -/
theorem claim_C7_in_page_single_target
    (g : Gateway) (s : CtrlState) (activeId overId : String) (oldIndex newIndex : Nat)
    (hne : activeId ≠ overId)
    (hfa : findIndexP (fun c => c.id == activeId) s.localChapters = some oldIndex)
    (hfo : findIndexP (fun c => c.id == overId) s.localChapters = some newIndex)
    (htop : ¬(newIndex = 0 ∧ 1 < s.currentPage))
    (hbot : ¬(newIndex = s.localChapters.length - 1 ∧ laterPage s = true)) :
    (handleDragEnd g s activeId (some overId)).2 = [] ∧
    ∃ n : Int,
      (handleDragEnd g s activeId (some overId)).1.pendingUpdate = some (activeId, n) ∧
      (handleDragEnd g s activeId (some overId)).1.localChapters.eraseIdx newIndex
        = s.localChapters.eraseIdx oldIndex ∧
      ∀ (g2 : Gateway) (t : Nat),
        (fireTimer g2 t (handleDragEnd g s activeId (some overId)).1).2.filter
            NetCall.isUpd = [] ∨
          (fireTimer g2 t (handleDragEnd g s activeId (some overId)).1).2.filter
            NetCall.isUpd = [NetCall.update activeId n] := by
  rw [handleDragEnd_inPage hne hfa hfo htop hbot]
  obtain ⟨hpend, hlocal, -, -, hcalls⟩ := inPageReorder_spec s activeId oldIndex newIndex
  refine ⟨hcalls, _, hpend, ?_, ?_⟩
  · rw [hlocal]
    exact arrayMove_eraseIdx newIndex (findIndexP_lt_length hfa)
  · intro g2 t
    rcases fireTimer_calls hpend g2 t with h | h
    · exact Or.inl (by rw [h]; rfl)
    · exact Or.inr (by rw [h]; rfl)

/-- C7 witness: on the concrete page, dragging chapter b onto chapter c
issues no synchronous call and keeps the relative order of the other
chapters. -/
theorem claim_C7_witness :
    (handleDragEnd exGateway exState1 "b" (some "c")).2 = [] ∧
    (handleDragEnd exGateway exState1 "b" (some "c")).1.localChapters.eraseIdx 2
      = exState1.localChapters.eraseIdx 1 := by
  obtain ⟨hcalls, n, hpend, herase, hupd⟩ :=
    claim_C7_in_page_single_target exGateway exState1 "b" "c" 1 2
      (by decide) (by decide) (by decide) (by decide) (by decide)
  exact ⟨hcalls, herase⟩

/-- Successful move-to-previous-page: the awaited (not debounced)
update carries the computed number, the page pointer moves back, the
debounce state is untouched, and the call trace is the fetch of the
previous page, the update, and the two refreshing fetches. -/
lemma movePrevPage_success {g : Gateway} {s : CtrlState} {activeId : String} {n : Int}
    (hn : n = (match (sortCh (g.pageOf (s.currentPage - 1))).getLast? with
      | some lastChapter => lastChapter.chapterNumber + 1
      | none => 1))
    (hok : g.updateResult activeId n = none) :
    (movePrevPage g s activeId).2
      = [NetCall.fetch (s.currentPage - 1), NetCall.update activeId n,
        NetCall.fetch (s.currentPage - 1), NetCall.fetch s.currentPage] ∧
    (movePrevPage g s activeId).1.currentPage = s.currentPage - 1 ∧
    (movePrevPage g s activeId).1.pendingUpdate = s.pendingUpdate ∧
    (movePrevPage g s activeId).1.armedTimers = s.armedTimers := by
  unfold movePrevPage
  dsimp only
  rw [← hn, hok]
  exact ⟨rfl, rfl, rfl, rfl⟩

/-- Failed move-to-previous-page: the revert restores the snapshot
taken from the awaited previous-page fetch, so the displayed order and
the snapshot both equal the sorted previous-page data; the page pointer
stays, and the trace is fetch, failed update, re-fetch (no retry). -/
lemma movePrevPage_fail {g : Gateway} {s : CtrlState} {activeId : String} {n : Int}
    {e : ApiError}
    (hn : n = (match (sortCh (g.pageOf (s.currentPage - 1))).getLast? with
      | some lastChapter => lastChapter.chapterNumber + 1
      | none => 1))
    (herr : g.updateResult activeId n = some e) :
    (movePrevPage g s activeId).1.localChapters = sortCh (g.pageOf (s.currentPage - 1)) ∧
    (movePrevPage g s activeId).1.originalOrder = sortCh (g.pageOf (s.currentPage - 1)) ∧
    (movePrevPage g s activeId).1.currentPage = s.currentPage ∧
    (movePrevPage g s activeId).2
      = [NetCall.fetch (s.currentPage - 1), NetCall.update activeId n,
        NetCall.fetch s.currentPage] := by
  unfold movePrevPage
  dsimp only
  rw [← hn, herr]
  exact ⟨rfl, rfl, rfl, rfl⟩

/-- Successful move-to-next-page: symmetric to `movePrevPage_success`. -/
lemma moveNextPage_success {g : Gateway} {s : CtrlState} {activeId : String} {n : Int}
    (hn : n = (match (sortCh (g.pageOf (s.currentPage + 1))).head? with
      | some firstChapter => max 1 (firstChapter.chapterNumber - 1)
      | none => 1))
    (hok : g.updateResult activeId n = none) :
    (moveNextPage g s activeId).2
      = [NetCall.fetch (s.currentPage + 1), NetCall.update activeId n,
        NetCall.fetch (s.currentPage + 1), NetCall.fetch s.currentPage] ∧
    (moveNextPage g s activeId).1.currentPage = s.currentPage + 1 ∧
    (moveNextPage g s activeId).1.pendingUpdate = s.pendingUpdate ∧
    (moveNextPage g s activeId).1.armedTimers = s.armedTimers := by
  unfold moveNextPage
  dsimp only
  rw [← hn, hok]
  exact ⟨rfl, rfl, rfl, rfl⟩

/-- Failed move-to-next-page: symmetric to `movePrevPage_fail`. -/
lemma moveNextPage_fail {g : Gateway} {s : CtrlState} {activeId : String} {n : Int}
    {e : ApiError}
    (hn : n = (match (sortCh (g.pageOf (s.currentPage + 1))).head? with
      | some firstChapter => max 1 (firstChapter.chapterNumber - 1)
      | none => 1))
    (herr : g.updateResult activeId n = some e) :
    (moveNextPage g s activeId).1.localChapters = sortCh (g.pageOf (s.currentPage + 1)) ∧
    (moveNextPage g s activeId).1.originalOrder = sortCh (g.pageOf (s.currentPage + 1)) ∧
    (moveNextPage g s activeId).1.currentPage = s.currentPage ∧
    (moveNextPage g s activeId).2
      = [NetCall.fetch (s.currentPage + 1), NetCall.update activeId n,
        NetCall.fetch s.currentPage] := by
  unfold moveNextPage
  dsimp only
  rw [← hn, herr]
  exact ⟨rfl, rfl, rfl, rfl⟩

/-- C4: a drop at index 0 while the current page is greater than 1
fetches the previous page and issues an awaited, not debounced, update
(the debounce slot and timers are untouched and the update call is in
the synchronous trace) whose number is the last previous-page chapter
number plus 1, or 1 for an empty previous page, and on success the
current page becomes the previous page; symmetrically, a drop at the
last index while a later page exists uses
`max(1, firstOfNextPage.chapterNumber - 1)`, or 1 for an empty next
page, and on success the current page advances. -/
theorem claim_C4_cross_page_moves
    (g : Gateway) (s : CtrlState) (activeId overId : String) (oldIndex newIndex : Nat)
    (hne : activeId ≠ overId)
    (hfa : findIndexP (fun c => c.id == activeId) s.localChapters = some oldIndex)
    (hfo : findIndexP (fun c => c.id == overId) s.localChapters = some newIndex) :
    ((newIndex = 0 ∧ 1 < s.currentPage) →
      ∀ n : Int,
        n = (match (sortCh (g.pageOf (s.currentPage - 1))).getLast? with
          | some lastChapter => lastChapter.chapterNumber + 1
          | none => 1) →
        g.updateResult activeId n = none →
        (handleDragEnd g s activeId (some overId)).2
          = [NetCall.fetch (s.currentPage - 1), NetCall.update activeId n,
            NetCall.fetch (s.currentPage - 1), NetCall.fetch s.currentPage] ∧
        (handleDragEnd g s activeId (some overId)).1.currentPage = s.currentPage - 1 ∧
        (handleDragEnd g s activeId (some overId)).1.pendingUpdate = s.pendingUpdate ∧
        (handleDragEnd g s activeId (some overId)).1.armedTimers = s.armedTimers) ∧
    (¬(newIndex = 0 ∧ 1 < s.currentPage) →
      (newIndex = s.localChapters.length - 1 ∧ laterPage s = true) →
      ∀ n : Int,
        n = (match (sortCh (g.pageOf (s.currentPage + 1))).head? with
          | some firstChapter => max 1 (firstChapter.chapterNumber - 1)
          | none => 1) →
        g.updateResult activeId n = none →
        (handleDragEnd g s activeId (some overId)).2
          = [NetCall.fetch (s.currentPage + 1), NetCall.update activeId n,
            NetCall.fetch (s.currentPage + 1), NetCall.fetch s.currentPage] ∧
        (handleDragEnd g s activeId (some overId)).1.currentPage = s.currentPage + 1 ∧
        (handleDragEnd g s activeId (some overId)).1.pendingUpdate = s.pendingUpdate ∧
        (handleDragEnd g s activeId (some overId)).1.armedTimers = s.armedTimers) := by
  constructor
  · intro htop n hn hok
    rw [handleDragEnd_top hne hfa hfo htop]
    exact movePrevPage_success hn hok
  · intro htop hbot n hn hok
    rw [handleDragEnd_bottom hne hfa hfo htop hbot]
    exact moveNextPage_success hn hok

/-- A gateway whose page 1 holds chapters numbered 4 and 7 and whose
updates fulfill. -/
def exGatewayPrev : Gateway :=
  ⟨fun p => if p = 1 then [⟨"p1", 4⟩, ⟨"p2", 7⟩] else [], fun _ _ => none⟩

/-- A synced page-2 state with chapters numbered 10 and 11. -/
def exStatePage2 : CtrlState :=
  ⟨[⟨"x", 10⟩, ⟨"y", 11⟩], [⟨"x", 10⟩, ⟨"y", 11⟩], 2, some 2, [], none, 0, none⟩

/-- A gateway whose page 2 holds chapters numbered 9 and 12 and whose
updates fulfill. -/
def exGatewayNext : Gateway :=
  ⟨fun p => if p = 2 then [⟨"n1", 9⟩, ⟨"n2", 12⟩] else [], fun _ _ => none⟩

/-- A synced page-1 state with chapters numbered 1 and 2 and a later
page available. -/
def exStatePage1 : CtrlState :=
  ⟨[⟨"x", 1⟩, ⟨"y", 2⟩], [⟨"x", 1⟩, ⟨"y", 2⟩], 1, some 2, [], none, 0, none⟩

/-- C4 witness: dragging y of page 2 onto its first position updates it
to 7 + 1 = 8 and lands on page 1; dragging x of page 1 onto the last
position with page 2 available updates it to max(1, 9 - 1) = 8 and
lands on page 2. -/
theorem claim_C4_witness :
    ((handleDragEnd exGatewayPrev exStatePage2 "y" (some "x")).2
      = [NetCall.fetch 1, NetCall.update "y" 8, NetCall.fetch 1, NetCall.fetch 2] ∧
      (handleDragEnd exGatewayPrev exStatePage2 "y" (some "x")).1.currentPage = 1) ∧
    ((handleDragEnd exGatewayNext exStatePage1 "x" (some "y")).2
      = [NetCall.fetch 2, NetCall.update "x" 8, NetCall.fetch 2, NetCall.fetch 1] ∧
      (handleDragEnd exGatewayNext exStatePage1 "x" (some "y")).1.currentPage = 2) := by
  obtain ⟨c1, c2, -, -⟩ :=
    (claim_C4_cross_page_moves exGatewayPrev exStatePage2 "y" "x" 1 0
      (by decide) (by decide) (by decide)).1 (by decide) 8 (by decide) rfl
  obtain ⟨d1, d2, -, -⟩ :=
    (claim_C4_cross_page_moves exGatewayNext exStatePage1 "x" "y" 0 1
      (by decide) (by decide) (by decide)).2 (by decide) (by decide) 8 (by decide) rfl
  exact ⟨⟨c1, c2⟩, ⟨d1, d2⟩⟩

/-- C9: during a cross-page move the target-page fetch performed before
the update refreshes the store and overwrites the rollback snapshot
with the target page sorted list; hence when that fetch succeeds and
the update then fails, the revert leaves the displayed order equal to
the target page sorted list, and in particular different from the
pre-drag order whenever the two differ. -/
theorem claim_C9_cross_page_failure_snapshot
    (g : Gateway) (s : CtrlState) (activeId overId : String) (oldIndex newIndex : Nat)
    (e : ApiError)
    (hne : activeId ≠ overId)
    (hfa : findIndexP (fun c => c.id == activeId) s.localChapters = some oldIndex)
    (hfo : findIndexP (fun c => c.id == overId) s.localChapters = some newIndex) :
    ((newIndex = 0 ∧ 1 < s.currentPage) →
      ∀ n : Int,
        n = (match (sortCh (g.pageOf (s.currentPage - 1))).getLast? with
          | some lastChapter => lastChapter.chapterNumber + 1
          | none => 1) →
        g.updateResult activeId n = some e →
        (handleDragEnd g s activeId (some overId)).1.localChapters
          = sortCh (g.pageOf (s.currentPage - 1)) ∧
        (handleDragEnd g s activeId (some overId)).1.originalOrder
          = sortCh (g.pageOf (s.currentPage - 1)) ∧
        (sortCh (g.pageOf (s.currentPage - 1)) ≠ s.localChapters →
          (handleDragEnd g s activeId (some overId)).1.localChapters
            ≠ s.localChapters)) ∧
    (¬(newIndex = 0 ∧ 1 < s.currentPage) →
      (newIndex = s.localChapters.length - 1 ∧ laterPage s = true) →
      ∀ n : Int,
        n = (match (sortCh (g.pageOf (s.currentPage + 1))).head? with
          | some firstChapter => max 1 (firstChapter.chapterNumber - 1)
          | none => 1) →
        g.updateResult activeId n = some e →
        (handleDragEnd g s activeId (some overId)).1.localChapters
          = sortCh (g.pageOf (s.currentPage + 1)) ∧
        (handleDragEnd g s activeId (some overId)).1.originalOrder
          = sortCh (g.pageOf (s.currentPage + 1)) ∧
        (sortCh (g.pageOf (s.currentPage + 1)) ≠ s.localChapters →
          (handleDragEnd g s activeId (some overId)).1.localChapters
            ≠ s.localChapters)) := by
  constructor
  · intro htop n hn herr
    rw [handleDragEnd_top hne hfa hfo htop]
    obtain ⟨h1, h2, -, -⟩ := movePrevPage_fail (s := s) hn herr
    exact ⟨h1, h2, fun hdiff => by rw [h1]; exact hdiff⟩
  · intro htop hbot n hn herr
    rw [handleDragEnd_bottom hne hfa hfo htop hbot]
    obtain ⟨h1, h2, -, -⟩ := moveNextPage_fail (s := s) hn herr
    exact ⟨h1, h2, fun hdiff => by rw [h1]; exact hdiff⟩

/-- A gateway whose page 1 holds chapters numbered 4 and 7 but whose
updates always reject. -/
def exGatewayPrevFail : Gateway :=
  ⟨fun p => if p = 1 then [⟨"p1", 4⟩, ⟨"p2", 7⟩] else [], fun _ _ => some ApiError.network⟩

/-- C9 witness: dragging y of page 2 onto its first position, with the
previous-page fetch succeeding and the update rejecting, leaves the
displayed order equal to the previous page sorted list rather than the
pre-drag order. -/
theorem claim_C9_witness :
    (handleDragEnd exGatewayPrevFail exStatePage2 "y" (some "x")).1.localChapters
      = [⟨"p1", 4⟩, ⟨"p2", 7⟩] ∧
    (handleDragEnd exGatewayPrevFail exStatePage2 "y" (some "x")).1.localChapters
      ≠ exStatePage2.localChapters := by
  obtain ⟨h1, h2, h3⟩ :=
    (claim_C9_cross_page_failure_snapshot exGatewayPrevFail exStatePage2 "y" "x" 1 0
      ApiError.network (by decide) (by decide) (by decide)).1 (by decide) 8 (by decide) rfl
  constructor
  · rw [h1]
    decide
  · exact h3 (by decide)

end AudiobookAdmin
